import Mathlib

/-!
Verification of the kvd-auction-tracker repository against its
natural-language specification.

The Python sources are shallowly embedded: the database table of auction
records ("cars") is a `List Car`, SQL aggregate/filter queries become list
operations, and each function under scrutiny is translated directly from
its source file (paths are given in the doc comment of every definition).
Machine floats in the source only ever carry exact results of rational
arithmetic on integer database columns, so they are modelled as `ℚ`.
-/

namespace KVD

/-! ### Generic string helpers

Python's substring operator `sub in s` is embedded as a Boolean scanner
over the character list of a string, and proved equivalent to
`List.IsInfix` so claims can be stated with the standard order relations.
-/

/-- Boolean test that `sub` occurs contiguously inside `l`: the embedding of
Python's `sub in s` substring operator. -/
def listOccurs (sub : List Char) : List Char → Bool
  | [] => sub.isEmpty
  | c :: rest => sub.isPrefixOf (c :: rest) || listOccurs sub rest

/-- String-level wrapper for `listOccurs`. -/
def strOccurs (sub s : String) : Bool := listOccurs sub.data s.data

theorem listOccurs_iff (sub l : List Char) : listOccurs sub l = true ↔ sub <:+: l := by
  induction l with
  | nil =>
      simp [listOccurs, List.isEmpty_iff]
  | cons c rest ih =>
      rw [listOccurs, Bool.or_eq_true, ih, List.infix_cons_iff,
        List.isPrefixOf_iff_prefix]

theorem strOccurs_iff (sub s : String) : strOccurs sub s = true ↔ sub.data <:+: s.data :=
  listOccurs_iff sub.data s.data

/-- Embedding of Python's `str.lower()`: lowercase every character.  (Defined
character-wise rather than through `String.toLower` so that concrete
instances evaluate inside the kernel.) -/
def strToLower (s : String) : String := String.mk (s.data.map Char.toLower)

/-! ### Claim C9 — sold-status detection

Embedding of `KVDScraper.is_sold` (src/src/scraper/kvd_scraper.py, lines
106–123).  The Python extracts the rendered page text with BeautifulSoup
and then tests two literal phrases with the `in` operator; the embedding
takes the extracted page text as its input.
-/

/-- Embedding of `KVDScraper.is_sold`: the listing is sold exactly when both
the phrase "Såld" and the phrase "Reservationspris uppnått" occur in the
page text. -/
def is_sold (page_text : String) : Bool :=
  strOccurs "Såld" page_text && strOccurs "Reservationspris uppnått" page_text

/-- Claim C9: `is_sold` returns true exactly when both literal phrases
"Såld" and "Reservationspris uppnått" occur in the page text; with only one
of the two phrases, or neither, it returns false. -/
theorem C9_is_sold_iff_both_phrases (t : String) :
    is_sold t = true ↔
      ("Såld".data <:+: t.data ∧ "Reservationspris uppnått".data <:+: t.data) := by
  rw [is_sold, Bool.and_eq_true, strOccurs_iff, strOccurs_iff]

/-! ### Claim C5 — AI assistant SQL guardrail

Embedding of the validation step of `execute_sql_query`
(src/src/ai/simple_main.py, lines 238–296).  The function lowercases the
candidate SQL and rejects it outright — returning an error string without
touching the database — when any of six keywords occurs as a substring.
What happens on accepted statements is the external SQL engine's business,
so the embedding is parameterised by an arbitrary `engine` that may read
and change the database state; rejection must leave the state unchanged
for every such engine.
-/

/-- Keyword list from `execute_sql_query`: a candidate statement containing
any of these (case-insensitively) is rejected before execution. -/
def forbidden_words : List String :=
  ["insert", "update", "delete", "drop", "alter", "truncate"]

/-- Embedding of the guard test in `execute_sql_query`:
`any(word in sql_lower for word in [...])`. -/
def sql_guard_rejects (sql : String) : Bool :=
  forbidden_words.any (fun w => strOccurs w (strToLower sql))

/-- Embedding of `execute_sql_query`: the guard runs first and short-circuits
with an error string; only accepted statements reach the database `engine`. -/
def execute_sql_query {D : Type} (engine : String → D → String × D)
    (db : D) (sql : String) : String × D :=
  if sql_guard_rejects sql then ("Error: Only SELECT queries are allowed.", db)
  else engine sql db

/-- Claim C5: any candidate SQL that case-insensitively contains one of the
six forbidden keywords is answered with the error string and never executed,
leaving the database state unchanged, whatever the SQL engine would do. -/
theorem C5_sql_guardrail {D : Type} (engine : String → D → String × D)
    (db : D) (sql : String)
    (h : ∃ w ∈ forbidden_words, w.data <:+: (strToLower sql).data) :
    execute_sql_query engine db sql = ("Error: Only SELECT queries are allowed.", db) := by
  have hg : sql_guard_rejects sql = true := by
    rw [sql_guard_rejects, List.any_eq_true]
    obtain ⟨w, hw, hocc⟩ := h
    exact ⟨w, hw, (strOccurs_iff w (strToLower sql)).mpr hocc⟩
  rw [execute_sql_query, if_pos hg]

/-- Witness for C5: a statement containing "DROP TABLE cars" is rejected and
the (here: counting) engine never runs, so the state stays at 0. -/
theorem C5_sql_guardrail_witness :
    execute_sql_query (fun s d => (s, d + 1)) (0 : Nat) "DROP TABLE cars;" =
      ("Error: Only SELECT queries are allowed.", 0) :=
  C5_sql_guardrail (fun s d => (s, d + 1)) 0 "DROP TABLE cars;"
    ⟨"drop", by decide, by decide⟩

/-! ### Data model

The auction-record entity from src/src/models/car.py, plus the scraper's
extracted-details dictionary (src/src/scraper/kvd_scraper.py,
`parse_auction_details`).  Dates are modelled as integers (days on a fixed
epoch) since only differences and comparisons of dates occur.  The
storage-set `created_at` timestamp is metadata no verified claim touches
and is left out of the record.
-/

/-- The details dictionary built by `KVDScraper.parse_auction_details`:
mileage, price and year are each best-effort and may be absent. -/
structure AuctionDetails where
  kvd_id : String
  url : String
  sale_date : Int
  brand : String
  model : String
  mileage : Option Int
  price : Option Int
  year : Option Int
deriving DecidableEq

/-- The `cars` table row (src/src/models/car.py): `price` is the only
nullable data column; `raw_data` is the free-form snapshot of the
scraper's extracted fields. -/
structure Car where
  id : Int
  kvd_id : String
  brand : String
  model : String
  year : Int
  price : Option Int
  mileage : Int
  sale_date : Int
  url : String
  raw_data : Option AuctionDetails
deriving DecidableEq

/-! ### Claim C4 — bulk delete

Embedding of `CarRepository.delete_all` (src/src/repositories/car.py,
lines 122–129): it first reads `SELECT count(cars.id)` (a count of the
non-null `id` values, i.e. of all rows), then issues the table-wide delete,
and returns the previously read count.
-/

/-- Embedding of the `select(func.count(Car.id))` aggregate: the number of
non-null `id` values among the stored rows (`id` is the non-null primary
key, so every row contributes). -/
def count_car_ids (db : List Car) : Nat := (db.filterMap (fun c => some c.id)).length

/-- Embedding of `CarRepository.delete_all`: read the row count, then delete
every row; the pair is (returned count, table contents afterwards). -/
def delete_all (db : List Car) : Nat × List Car :=
  let count := count_car_ids db
  (count, [])

/-- Claim C4: for a table of N rows, `delete_all` returns N and leaves the
table with zero rows. -/
theorem C4_delete_all (db : List Car) : delete_all db = (db.length, []) := by
  simp [delete_all, count_car_ids, List.length_filterMap_eq_countP]

/-! ### Claim C2 — repository statistics

Embedding of `CarRepository.get_statistics` (src/src/repositories/car.py,
lines 40–76).  The SQL aggregates count/avg/min/max/sum are computed over
the rows matching brand and model exactly; `price` aggregates skip NULL
prices and are NULL when no priced row exists, which the Python collapses
to zero with `or 0`.  `price_trend` is hard-coded to 0.0 (the TODO in the
source). -/

/-- The statistics record shape (src/src/api/schemas.py `Statistics`). -/
structure Statistics where
  count : Nat
  avg_price : ℚ
  min_price : Int
  max_price : Int
  avg_mileage : ℚ
  total_value : Int
  price_trend : ℚ
deriving DecidableEq

/-- Embedding of `CarRepository.get_statistics`. -/
def get_statistics (db : List Car) (brand model : String) : Statistics :=
  let rows : List Car := db.filter (fun c => c.brand == brand && c.model == model)
  let prices : List Int := rows.filterMap (fun c => c.price)
  { count := (rows.filterMap (fun c => some c.id)).length
  , avg_price := if prices.isEmpty then 0 else (prices.sum : ℚ) / (prices.length : ℚ)
  , min_price := (prices.min?).getD 0
  , max_price := (prices.max?).getD 0
  , avg_mileage :=
      if rows.isEmpty then 0
      else ((rows.map (fun c => c.mileage)).sum : ℚ) / (rows.length : ℚ)
  , total_value := prices.sum
  , price_trend := 0 }

/-- Claim C2: when no stored record matches the brand and model every
aggregate of `get_statistics` is zero, and `price_trend` is 0.0 for every
input, matching rows or not. -/
theorem C2_get_statistics (db : List Car) (brand model : String) :
    ((∀ c ∈ db, ¬(c.brand = brand ∧ c.model = model)) →
       get_statistics db brand model =
         { count := 0, avg_price := 0, min_price := 0, max_price := 0,
           avg_mileage := 0, total_value := 0, price_trend := 0 }) ∧
    (get_statistics db brand model).price_trend = 0 := by
  constructor
  · intro h
    have hfil : db.filter (fun c => c.brand == brand && c.model == model) = [] := by
      rw [List.filter_eq_nil_iff]
      intro c hc
      simp only [Bool.and_eq_true, beq_iff_eq]
      exact fun hb => h c hc ⟨hb.1, hb.2⟩
    simp [get_statistics, hfil]
  · simp [get_statistics]

/-- Witness car used by several concrete instances below. -/
def volvoCar : Car :=
  { id := 1, kvd_id := "volvo-v70-abc", brand := "volvo", model := "v70",
    year := 2018, price := some 150000, mileage := 1200, sale_date := 100,
    url := "https://www.kvd.se/auktioner/volvo-v70-abc", raw_data := none }

/-- Witness for C2: a one-row table holding a Volvo V70 has no rows matching
brand "bmw" / model "m3", so every aggregate comes back zero. -/
theorem C2_get_statistics_witness :
    get_statistics [volvoCar] "bmw" "m3" =
      { count := 0, avg_price := 0, min_price := 0, max_price := 0,
        avg_mileage := 0, total_value := 0, price_trend := 0 } :=
  (C2_get_statistics [volvoCar] "bmw" "m3").1 (by decide)

/-! ### Claim C1 — shared price-trend calculation

Embedding of `calculate_price_trend` (src/api/main.py, lines 102–112).
The function receives the records matched by `get_model_statistics`; the
claim quantifies over records that carry a sale date and a price, which the
structure `PricedRecord` captures.  `scipy.stats.linregress` computes the
ordinary-least-squares slope `(n·Σxy − Σx·Σy) / (n·Σx² − (Σx)²)`; when all
x values are identical the denominator is zero and scipy raises
`ValueError`, which the embedding models as `none`.
-/

/-- An auction record with a sale date and a price, the claim's domain. -/
structure PricedRecord where
  sale_date : Int
  price : Int
deriving DecidableEq

/-- Sum of a rational-valued function over a record list. -/
def sumBy (l : List PricedRecord) (f : PricedRecord → ℚ) : ℚ := (l.map f).sum

/-- The x value used by `calculate_price_trend`:
`(c.sale_date - cars[0].sale_date).days`. -/
def xdev (c0 c : PricedRecord) : ℚ := (c.sale_date : ℚ) - (c0.sale_date : ℚ)

/-- The y value used by `calculate_price_trend`: the record's price. -/
def yval (c : PricedRecord) : ℚ := (c.price : ℚ)

/-- Denominator of the least-squares slope as scipy computes it:
`n·Σx² − (Σx)²` (n times the sum of squared deviations from the mean). -/
def lr_den (xs : List ℚ) : ℚ :=
  (xs.length : ℚ) * (xs.map (fun a => a * a)).sum - xs.sum * xs.sum

/-- Numerator of the least-squares slope as scipy computes it:
`n·Σxy − Σx·Σy`. -/
def lr_num (xs ys : List ℚ) : ℚ :=
  (xs.length : ℚ) * ((xs.zip ys).map (fun p => p.1 * p.2)).sum - xs.sum * ys.sum

/-- Embedding of `scipy.stats.linregress(x, y).slope`; `none` models the
`ValueError` scipy raises when all x values are identical. -/
def linregress_slope (xs ys : List ℚ) : Option ℚ :=
  if lr_den xs = 0 then none else some (lr_num xs ys / lr_den xs)

/-- Embedding of `calculate_price_trend`: fewer than 2 records give 0.0;
otherwise the slope of price over days elapsed since the first record's
sale date. -/
def calculate_price_trend (cars : List PricedRecord) : Option ℚ :=
  if cars.length < 2 then some 0
  else
    match cars with
    | [] => some 0
    | c0 :: rest =>
        linregress_slope ((c0 :: rest).map (xdev c0)) ((c0 :: rest).map yval)

/-- Statement of the specification's algorithm, written from the spec's
words: the ordinary-least-squares slope of y on x, i.e. the sum of the
products of the deviations from the means, divided by the sum of squared
x deviations, with x = days since the first record's sale date and
y = price. -/
def spec_ols_slope : List PricedRecord → ℚ
  | [] => 0
  | c0 :: rest =>
      sumBy (c0 :: rest)
          (fun c => (xdev c0 c - sumBy (c0 :: rest) (xdev c0) / (((c0 :: rest).length : ℚ)))
            * (yval c - sumBy (c0 :: rest) yval / (((c0 :: rest).length : ℚ))))
        / sumBy (c0 :: rest)
          (fun c => (xdev c0 c - sumBy (c0 :: rest) (xdev c0) / (((c0 :: rest).length : ℚ)))
            * (xdev c0 c - sumBy (c0 :: rest) (xdev c0) / (((c0 :: rest).length : ℚ))))

/-- Definedness condition of the regression: `n·Σx² − (Σx)²`, which is zero
exactly when all sale dates coincide. -/
def trend_denominator : List PricedRecord → ℚ
  | [] => 0
  | c0 :: rest =>
      ((c0 :: rest).length : ℚ)
          * sumBy (c0 :: rest) (fun c => xdev c0 c * xdev c0 c)
        - sumBy (c0 :: rest) (xdev c0) * sumBy (c0 :: rest) (xdev c0)

theorem sumBy_centered (l : List PricedRecord) (f g : PricedRecord → ℚ) (a b : ℚ) :
    sumBy l (fun c => (f c - a) * (g c - b)) =
      sumBy l (fun c => f c * g c) - a * sumBy l g - b * sumBy l f
        + (l.length : ℚ) * (a * b) := by
  induction l with
  | nil => simp [sumBy]
  | cons c t ih =>
      simp only [sumBy, List.map_cons, List.sum_cons, List.length_cons] at ih ⊢
      push_cast
      rw [ih]
      ring

theorem zip_self_map {α : Type} (l : List α) : l.zip l = l.map (fun a => (a, a)) := by
  induction l with
  | nil => rfl
  | cons a t ih => rw [List.zip_cons_cons, ih, List.map_cons]

theorem lr_den_map (c0 : PricedRecord) (l : List PricedRecord) :
    lr_den (l.map (xdev c0)) =
      (l.length : ℚ) * sumBy l (fun c => xdev c0 c * xdev c0 c)
        - sumBy l (xdev c0) * sumBy l (xdev c0) := by
  simp only [lr_den, sumBy, List.map_map, List.length_map]
  rfl

theorem lr_num_map (c0 : PricedRecord) (l : List PricedRecord) :
    lr_num (l.map (xdev c0)) (l.map yval) =
      (l.length : ℚ) * sumBy l (fun c => xdev c0 c * yval c)
        - sumBy l (xdev c0) * sumBy l yval := by
  rw [lr_num, List.zip_map, zip_self_map]
  simp only [sumBy, List.map_map, List.length_map]
  rfl

/-- Claim C1: with fewer than 2 records the shared price-trend calculation
returns exactly 0.0; with 2 or more records (whose elapsed-day values are
not all identical, so that the regression is defined) it returns the
ordinary-least-squares slope of price on days elapsed since the first
record's sale date. -/
theorem C1_price_trend (cars : List PricedRecord) :
    (cars.length < 2 → calculate_price_trend cars = some 0) ∧
    (2 ≤ cars.length → trend_denominator cars ≠ 0 →
       calculate_price_trend cars = some (spec_ols_slope cars)) := by
  constructor
  · intro h
    simp only [calculate_price_trend]
    rw [if_pos h]
  · cases cars with
    | nil => intro h2; simp at h2
    | cons c0 rest =>
      intro h2 hden
      have hnlt : ¬ (c0 :: rest).length < 2 := by omega
      have hred : calculate_price_trend (c0 :: rest) =
          linregress_slope ((c0 :: rest).map (xdev c0)) ((c0 :: rest).map yval) := by
        simp only [calculate_price_trend]
        rw [if_neg hnlt]
      rw [hred]
      have hlen : ((c0 :: rest).length : ℚ) ≠ 0 := by
        exact_mod_cast (by simp : (c0 :: rest).length ≠ 0)
      rw [trend_denominator] at hden
      have hden' : lr_den ((c0 :: rest).map (xdev c0)) ≠ 0 := by
        rw [lr_den_map]; exact hden
      rw [linregress_slope, if_neg hden', lr_num_map, lr_den_map, spec_ols_slope]
      congr 1
      rw [sumBy_centered, sumBy_centered]
      set n : ℚ := ((c0 :: rest).length : ℚ) with hn
      set Sx : ℚ := sumBy (c0 :: rest) (xdev c0) with hSx
      set Sy : ℚ := sumBy (c0 :: rest) yval with hSy
      set Sxy : ℚ := sumBy (c0 :: rest) (fun c => xdev c0 c * yval c) with hSxy
      set Sxx : ℚ := sumBy (c0 :: rest) (fun c => xdev c0 c * xdev c0 c) with hSxx
      have hcden : Sxx - Sx / n * Sx - Sx / n * Sx + n * (Sx / n * (Sx / n)) ≠ 0 := by
        intro h0
        apply hden
        have : n * (Sxx - Sx / n * Sx - Sx / n * Sx + n * (Sx / n * (Sx / n))) =
            n * Sxx - Sx * Sx := by
          field_simp
          ring
        rw [h0, mul_zero] at this
        exact this.symm
      rw [div_eq_div_iff hden hcden]
      field_simp
      ring

/-- Fixed three-record list used to witness the price-trend claim:
sale dates 0, 1, 2 days with prices 10, 20, 30. -/
def trendWitnessRecords : List PricedRecord :=
  [⟨0, 10⟩, ⟨1, 20⟩, ⟨2, 30⟩]

/-- Witness for C1: on three records with distinct dates the computed trend
equals the ordinary-least-squares slope. -/
theorem C1_price_trend_witness :
    calculate_price_trend trendWitnessRecords = some (spec_ols_slope trendWitnessRecords) :=
  (C1_price_trend trendWitnessRecords).2 (by decide)
    (by norm_num [trend_denominator, sumBy, xdev, trendWitnessRecords])

/-! ### Claims C10 and C6 — filtered listing and the /cars route

Embedding of `CarRepository.get_filtered` (src/src/repositories/car.py,
lines 91–120) and of the route handler `get_cars`
(src/src/api/routes.py, lines 18–59).  `ORDER BY sale_date DESC` is
modelled by an insertion sort on the sale date (SQL leaves the order of
ties unspecified, and no claim depends on tie order); `OFFSET`/`LIMIT`
become `drop`/`take`.  The `brand`/`model`/`year` filters are guarded by
Python truthiness (`if brand:`), the four bounds by `is not None`.
-/

/-- Insert a car into a sale-date-descending list, keeping it sorted. -/
def insertDesc (c : Car) : List Car → List Car
  | [] => [c]
  | d :: t => if d.sale_date ≤ c.sale_date then c :: d :: t else d :: insertDesc c t

/-- Embedding of `ORDER BY sale_date DESC`. -/
def orderBySaleDateDesc : List Car → List Car
  | [] => []
  | c :: t => insertDesc c (orderBySaleDateDesc t)

theorem mem_insertDesc (c a : Car) (l : List Car) :
    c ∈ insertDesc a l ↔ c = a ∨ c ∈ l := by
  induction l with
  | nil => simp [insertDesc]
  | cons d t ih =>
      by_cases h : d.sale_date ≤ a.sale_date
      · simp [insertDesc, h]
      · simp only [insertDesc, if_neg h, List.mem_cons, ih]
        tauto

theorem mem_orderBySaleDateDesc (c : Car) (l : List Car) :
    c ∈ orderBySaleDateDesc l ↔ c ∈ l := by
  induction l with
  | nil => simp [orderBySaleDateDesc]
  | cons d t ih => simp [orderBySaleDateDesc, mem_insertDesc, ih]

/-- Truthiness-guarded brand filter: `if brand: query.filter(Car.brand == brand)`
— `None` and the empty string both leave the query unfiltered. -/
def passes_brand : Option String → Car → Bool
  | none, _ => true
  | some b, c => if b = "" then true else c.brand == b

/-- Truthiness-guarded model filter, analogous to the brand filter. -/
def passes_model : Option String → Car → Bool
  | none, _ => true
  | some m, c => if m = "" then true else c.model == m

/-- Truthiness-guarded year filter: `if year:` — `None` and `0` both leave
the query unfiltered. -/
def passes_year : Option Int → Car → Bool
  | none, _ => true
  | some y, c => if y = 0 then true else c.year == y

/-- The `min_price is not None` filter: `Car.price >= min_price`; a NULL
price never satisfies a SQL comparison, so priceless rows are excluded. -/
def passes_min_price : Option Int → Car → Bool
  | none, _ => true
  | some m, c => match c.price with
    | none => false
    | some p => decide (m ≤ p)

/-- The `max_price is not None` filter: `Car.price <= max_price`. -/
def passes_max_price : Option Int → Car → Bool
  | none, _ => true
  | some m, c => match c.price with
    | none => false
    | some p => decide (p ≤ m)

/-- The `min_mileage is not None` filter (`mileage` is a non-null column). -/
def passes_min_mileage : Option Int → Car → Bool
  | none, _ => true
  | some m, c => decide (m ≤ c.mileage)

/-- The `max_mileage is not None` filter. -/
def passes_max_mileage : Option Int → Car → Bool
  | none, _ => true
  | some m, c => decide (c.mileage ≤ m)

/-- Conjunction of the seven optional filters of `get_filtered`. -/
def car_matches (brand model : Option String)
    (year min_price max_price min_mileage max_mileage : Option Int) (c : Car) : Bool :=
  passes_brand brand c && passes_model model c && passes_year year c &&
    passes_min_price min_price c && passes_max_price max_price c &&
    passes_min_mileage min_mileage c && passes_max_mileage max_mileage c

/-- Embedding of `CarRepository.get_filtered`: apply the supplied filters,
order by sale date descending, then apply offset and limit. -/
def get_filtered (db : List Car) (skip limit : Nat) (brand model : Option String)
    (year min_price max_price min_mileage max_mileage : Option Int) : List Car :=
  ((orderBySaleDateDesc
      (db.filter (car_matches brand model year min_price max_price min_mileage max_mileage))).drop
    skip).take limit

theorem mem_get_filtered (db : List Car) (skip limit : Nat)
    (brand model : Option String)
    (year min_price max_price min_mileage max_mileage : Option Int) (c : Car)
    (hc : c ∈ get_filtered db skip limit brand model year min_price max_price
        min_mileage max_mileage) :
    car_matches brand model year min_price max_price min_mileage max_mileage c = true := by
  have h1 := List.mem_of_mem_drop (List.mem_of_mem_take hc)
  rw [mem_orderBySaleDateDesc] at h1
  exact (List.mem_filter.mp h1).2

/-- Claim C10: the brand, model and year filters of `get_filtered` are
applied only when truthy — the empty string or year 0 is indistinguishable
from omitting the filter — while the four price/mileage bounds are tested
against None, so a bound of 0 is applied: every returned row then satisfies
the corresponding comparison (in particular a min or max price bound of 0
excludes rows with a NULL price). -/
theorem C10_truthy_filters (db : List Car) (skip limit : Nat)
    (brand model : Option String)
    (year min_price max_price min_mileage max_mileage : Option Int) :
    (get_filtered db skip limit (some "") model year min_price max_price
        min_mileage max_mileage
      = get_filtered db skip limit none model year min_price max_price
        min_mileage max_mileage) ∧
    (get_filtered db skip limit brand (some "") year min_price max_price
        min_mileage max_mileage
      = get_filtered db skip limit brand none year min_price max_price
        min_mileage max_mileage) ∧
    (get_filtered db skip limit brand model (some 0) min_price max_price
        min_mileage max_mileage
      = get_filtered db skip limit brand model none min_price max_price
        min_mileage max_mileage) ∧
    (∀ c ∈ get_filtered db skip limit brand model year (some 0) max_price
        min_mileage max_mileage, ∃ p, c.price = some p ∧ 0 ≤ p) ∧
    (∀ c ∈ get_filtered db skip limit brand model year min_price (some 0)
        min_mileage max_mileage, ∃ p, c.price = some p ∧ p ≤ 0) ∧
    (∀ c ∈ get_filtered db skip limit brand model year min_price max_price
        (some 0) max_mileage, 0 ≤ c.mileage) ∧
    (∀ c ∈ get_filtered db skip limit brand model year min_price max_price
        min_mileage (some 0), c.mileage ≤ 0) := by
  refine ⟨?_, ?_, ?_, ?_, ?_, ?_, ?_⟩
  · have hfil : db.filter (car_matches (some "") model year min_price max_price
        min_mileage max_mileage)
        = db.filter (car_matches none model year min_price max_price
          min_mileage max_mileage) :=
      List.filter_congr (fun c _ => by simp [car_matches, passes_brand])
    simp only [get_filtered, hfil]
  · have hfil : db.filter (car_matches brand (some "") year min_price max_price
        min_mileage max_mileage)
        = db.filter (car_matches brand none year min_price max_price
          min_mileage max_mileage) :=
      List.filter_congr (fun c _ => by simp [car_matches, passes_model])
    simp only [get_filtered, hfil]
  · have hfil : db.filter (car_matches brand model (some 0) min_price max_price
        min_mileage max_mileage)
        = db.filter (car_matches brand model none min_price max_price
          min_mileage max_mileage) :=
      List.filter_congr (fun c _ => by simp [car_matches, passes_year])
    simp only [get_filtered, hfil]
  · intro c hcmem
    have h := mem_get_filtered _ _ _ _ _ _ _ _ _ _ c hcmem
    simp only [car_matches, Bool.and_eq_true] at h
    have hp := h.1.1.1.2
    cases hcp : c.price with
    | none => rw [passes_min_price, hcp] at hp; exact absurd hp (by simp)
    | some p =>
        rw [passes_min_price, hcp] at hp
        exact ⟨p, rfl, by simpa using hp⟩
  · intro c hcmem
    have h := mem_get_filtered _ _ _ _ _ _ _ _ _ _ c hcmem
    simp only [car_matches, Bool.and_eq_true] at h
    have hp := h.1.1.2
    cases hcp : c.price with
    | none => rw [passes_max_price, hcp] at hp; exact absurd hp (by simp)
    | some p =>
        rw [passes_max_price, hcp] at hp
        exact ⟨p, rfl, by simpa using hp⟩
  · intro c hcmem
    have h := mem_get_filtered _ _ _ _ _ _ _ _ _ _ c hcmem
    simp only [car_matches, Bool.and_eq_true] at h
    have hp := h.1.2
    simpa [passes_min_mileage] using hp
  · intro c hcmem
    have h := mem_get_filtered _ _ _ _ _ _ _ _ _ _ c hcmem
    simp only [car_matches, Bool.and_eq_true] at h
    have hp := h.2
    simpa [passes_max_mileage] using hp

/-- Witness for C10, conjunct for min_price = 0: the Volvo record is
returned under a zero minimum-price bound, and the theorem yields its
non-null, non-negative price. -/
theorem C10_truthy_filters_witness :
    ∃ p, volvoCar.price = some p ∧ 0 ≤ p :=
  (C10_truthy_filters [volvoCar] 0 100 none none none none none none none).2.2.2.1
    volvoCar (by decide)

/-- Embedding of the route handler `get_cars` (src/src/api/routes.py,
lines 18–59): when the brand parameter is truthy the caller's limit is
replaced with 9999 before delegating to the filtered query; the caller's
skip is passed through unchanged. -/
def get_cars (db : List Car) (skip limit : Nat) (brand model : Option String)
    (year min_price max_price min_mileage max_mileage : Option Int) : List Car :=
  let limit2 : Nat :=
    match brand with
    | some b => if b = "" then limit else 9999
    | none => limit
  get_filtered db skip limit2 brand model year min_price max_price min_mileage max_mileage

/-- Modelled from the spec's words "the whole matching brand's history":
every stored record of the brand, in the API's sale-date-descending
order. -/
def brand_history (db : List Car) (b : String) : List Car :=
  orderBySaleDateDesc (db.filter (fun c => c.brand == b))

/-- Two records of the same brand with distinct sale dates, used to refute
claim C6 as stated. -/
def bmwLate : Car :=
  { id := 2, kvd_id := "bmw-m3-late", brand := "bmw", model := "m3",
    year := 2020, price := some 300000, mileage := 400, sale_date := 60,
    url := "https://www.kvd.se/auktioner/bmw-m3-late", raw_data := none }

/-- Companion record to `bmwLate`; same brand, earlier sale date. -/
def bmwEarly : Car :=
  { id := 3, kvd_id := "bmw-m3-early", brand := "bmw", model := "m3",
    year := 2019, price := some 250000, mileage := 800, sale_date := 50,
    url := "https://www.kvd.se/auktioner/bmw-m3-early", raw_data := none }

/-- Counterexample to claim C6 as stated: with a brand filter supplied the
response is claimed to contain the whole matching brand's history for every
skip and limit, but with skip = 1 the later-sold of two "bmw" records is
dropped from the response. -/
theorem C6_counterexample :
    ¬ (∀ c ∈ brand_history [bmwLate, bmwEarly] "bmw",
        c ∈ get_cars [bmwLate, bmwEarly] 1 100 (some "bmw") none none none
          none none none) := by
  decide

/-- Claim C6 (amended): when a non-empty brand filter is supplied the
handler substitutes 9999 for the caller's limit, and the response is the
brand's sale-date-descending history with the caller's skip applied and
capped at 9999 records — the whole history exactly when skip is 0 and the
brand has at most 9999 records. -/
theorem C6_brand_disables_limit (db : List Car) (skip limit : Nat) (b : String)
    (hb : b ≠ "") :
    get_cars db skip limit (some b) none none none none none none =
      ((brand_history db b).drop skip).take 9999 := by
  have hfil : db.filter (car_matches (some b) none none none none none none)
      = db.filter (fun c => c.brand == b) :=
    List.filter_congr (fun c _ => by
      simp [car_matches, passes_brand, passes_model, passes_year,
        passes_min_price, passes_max_price, passes_min_mileage,
        passes_max_mileage, hb])
  simp only [get_cars, get_filtered, brand_history, if_neg hb, hfil]

/-- Witness for the amended C6: with skip 0 and caller limit 1 the full
two-record "bmw" history is returned (the limit of 1 is ignored). -/
theorem C6_brand_disables_limit_witness :
    get_cars [bmwLate, bmwEarly] 0 1 (some "bmw") none none none none none none =
      ((brand_history [bmwLate, bmwEarly] "bmw").drop 0).take 9999 :=
  C6_brand_disables_limit [bmwLate, bmwEarly] 0 1 "bmw" (by decide)

/-! ### Claim C7 — partial update

`CarService.update_car` (src/src/services/car_service.py, lines 34–39)
fetches the target row, returns absent when it does not exist, and
otherwise passes the payload fields that were explicitly supplied
(`model_dump(exclude_unset=True)`) to the base repository's `update`.
The base repository module (src/repositories/base.py) is not present under
src/, so its `get` and `update` operations are modelled from the spec.
A payload field is `none` when not supplied; `price` is the one nullable
column, so its supplied value is itself optional.
-/

/-- The `CarUpdate` payload (src/src/api/schemas.py): every field optional;
`none` means the field was not supplied in the request. -/
structure CarUpdate where
  brand : Option String := none
  model : Option String := none
  year : Option Int := none
  price : Option (Option Int) := none
  mileage : Option Int := none
  sale_date : Option Int := none
  url : Option String := none
  raw_data : Option (Option AuctionDetails) := none
deriving DecidableEq

/-- Modelled from the spec: the base repository's partial-field `update` —
"only fields explicitly supplied are changed" — applied to one row.  The
primary key and `kvd_id` are not part of the update payload and stay. -/
def apply_update (c : Car) (u : CarUpdate) : Car :=
  { c with
    brand := u.brand.getD c.brand
    model := u.model.getD c.model
    year := u.year.getD c.year
    price := u.price.getD c.price
    mileage := u.mileage.getD c.mileage
    sale_date := u.sale_date.getD c.sale_date
    url := u.url.getD c.url
    raw_data := u.raw_data.getD c.raw_data }

/-- Embedding of `CarService.update_car` over the modelled base repository:
look the row up by id (`repository.get`, modelled from the spec as the
first stored row with that id); absent id leaves storage unchanged and
returns absent; otherwise the row is replaced by its updated version. -/
def update_car (db : List Car) (car_id : Int) (u : CarUpdate) :
    Option Car × List Car :=
  match db.find? (fun c => c.id == car_id) with
  | none => (none, db)
  | some c =>
      (some (apply_update c u),
        db.map (fun x => if x.id == car_id then apply_update c u else x))

theorem find?_map_replace (p : Car → Bool) (c' : Car) (hp : p c' = true)
    (db : List Car) (c : Car) (h : db.find? p = some c) :
    (db.map (fun x => if p x then c' else x)).find? p = some c' := by
  induction db with
  | nil => simp at h
  | cons a t ih =>
      by_cases ha : p a = true
      · simp only [List.map_cons, if_pos ha]
        exact List.find?_cons_of_pos _ hp
      · have hth : t.find? p = some c := by
          rwa [List.find?_cons_of_neg _ ha] at h
        simp only [List.map_cons, if_neg ha]
        rw [List.find?_cons_of_neg _ ha]
        exact ih hth

/-- Claim C7: `update_car` returns absent and leaves storage unchanged when
no record with the id exists; otherwise it changes exactly the supplied
payload fields — a re-fetch of the id yields the updated record, whose
every unsupplied field equals the old value and whose every supplied field
equals the supplied value. -/
theorem C7_update_car (db : List Car) (car_id : Int) (u : CarUpdate) :
    (db.find? (fun c => c.id == car_id) = none → update_car db car_id u = (none, db)) ∧
    (∀ c, db.find? (fun c => c.id == car_id) = some c →
       (update_car db car_id u).1 = some (apply_update c u) ∧
       (update_car db car_id u).2.find? (fun x => x.id == car_id)
         = some (apply_update c u) ∧
       (u.brand = none → (apply_update c u).brand = c.brand) ∧
       (∀ v, u.brand = some v → (apply_update c u).brand = v) ∧
       (u.model = none → (apply_update c u).model = c.model) ∧
       (∀ v, u.model = some v → (apply_update c u).model = v) ∧
       (u.year = none → (apply_update c u).year = c.year) ∧
       (∀ v, u.year = some v → (apply_update c u).year = v) ∧
       (u.price = none → (apply_update c u).price = c.price) ∧
       (∀ v, u.price = some v → (apply_update c u).price = v) ∧
       (u.mileage = none → (apply_update c u).mileage = c.mileage) ∧
       (∀ v, u.mileage = some v → (apply_update c u).mileage = v) ∧
       (u.sale_date = none → (apply_update c u).sale_date = c.sale_date) ∧
       (∀ v, u.sale_date = some v → (apply_update c u).sale_date = v) ∧
       (u.url = none → (apply_update c u).url = c.url) ∧
       (∀ v, u.url = some v → (apply_update c u).url = v) ∧
       (u.raw_data = none → (apply_update c u).raw_data = c.raw_data) ∧
       (∀ v, u.raw_data = some v → (apply_update c u).raw_data = v) ∧
       (apply_update c u).id = c.id ∧ (apply_update c u).kvd_id = c.kvd_id) := by
  constructor
  · intro h
    simp only [update_car, h]
  · intro c h
    have hcid : ((apply_update c u).id == car_id) = true := by
      have := List.find?_some h
      simpa [apply_update] using this
    refine ⟨by simp only [update_car, h], ?_, ?_, ?_, ?_, ?_, ?_, ?_, ?_, ?_, ?_,
      ?_, ?_, ?_, ?_, ?_, ?_, ?_, rfl, rfl⟩
    · simp only [update_car, h]
      exact find?_map_replace _ _ hcid db c h
    all_goals first
      | (intro hv; simp [apply_update, hv])
      | (intro v hv; simp [apply_update, hv])

/-- Concrete update payload supplying only brand and price, used to witness
claim C7. -/
def brandPriceUpd : CarUpdate :=
  { brand := some "volvo cars", price := some (some 175000) }

/-- Witness for C7: updating the stored Volvo's brand and price only, the
re-fetched record keeps its model, year and mileage. -/
theorem C7_update_car_witness :
    (update_car [volvoCar] 1 brandPriceUpd).2.find? (fun x => x.id == 1)
      = some (apply_update volvoCar brandPriceUpd) ∧
    (apply_update volvoCar brandPriceUpd).model = volvoCar.model ∧
    (apply_update volvoCar brandPriceUpd).year = volvoCar.year ∧
    (apply_update volvoCar brandPriceUpd).mileage = volvoCar.mileage := by
  have h := (C7_update_car [volvoCar] 1 brandPriceUpd).2 volvoCar (by decide)
  exact ⟨h.2.1, h.2.2.2.2.1 (by decide), h.2.2.2.2.2.2.1 (by decide),
    h.2.2.2.2.2.2.2.2.2.2.1 (by decide)⟩

/-! ### Claim C3 — skip-if-exists persistence

Embedding of `KVDScraper.save_auction` (src/src/scraper/kvd_scraper.py,
lines 289–330) together with `CarService.check_if_car_exists`
(src/src/services/car_service.py, lines 67–69).  The scraper state is the
database table plus the in-memory record list that mirrors the CSV shadow
file.  `check_if_car_exists` goes through the base repository's
`get_by_kvd_id` lookup, whose module is not under src/ and is modelled
from the spec as "record or absent" for the external id. -/

/-- Scraper-visible storage: the cars table and the in-memory list that is
rewritten to the CSV shadow file after each insertion. -/
structure ScraperState where
  db : List Car
  csv : List AuctionDetails
deriving DecidableEq

/-- Embedding of `CarService.check_if_car_exists`: whether a stored record
carries the external id (via the spec-modelled `get_by_kvd_id` lookup). -/
def check_if_car_exists (db : List Car) (kvd_id : String) : Bool :=
  (db.find? (fun c => c.kvd_id == kvd_id)).isSome

/-- The creation payload `save_auction` builds from the extracted details:
0 substitutes a missing year or mileage, the raw details are kept as
`raw_data`, and storage generates the primary key (modelled as the next
integer after the current row count). -/
def car_create_of_details (db : List Car) (d : AuctionDetails) : Car :=
  { id := (db.length : Int) + 1
  , kvd_id := d.kvd_id
  , brand := d.brand
  , model := d.model
  , year := d.year.getD 0
  , price := d.price
  , mileage := d.mileage.getD 0
  , sale_date := d.sale_date
  , url := d.url
  , raw_data := some d }

/-- Embedding of `KVDScraper.save_auction`: re-check existence by external
id against the database; if present, skip silently (state unchanged),
otherwise insert the new row and append the details to the CSV list. -/
def save_auction (st : ScraperState) (d : AuctionDetails) : ScraperState :=
  if check_if_car_exists st.db d.kvd_id then st
  else
    { db := st.db ++ [car_create_of_details st.db d]
    , csv := st.csv ++ [d] }

/-- Claim C3: saving an auction whose `kvd_id` already exists in storage is
a no-op — no row is inserted, no error is raised, and both the database and
the in-memory CSV record list are exactly unchanged. -/
theorem C3_save_auction_dedup (st : ScraperState) (d : AuctionDetails)
    (h : ∃ c ∈ st.db, c.kvd_id = d.kvd_id) :
    save_auction st d = st := by
  have hex : check_if_car_exists st.db d.kvd_id = true := by
    rw [check_if_car_exists, List.find?_isSome]
    obtain ⟨c, hc, hid⟩ := h
    exact ⟨c, hc, by simp [hid]⟩
  rw [save_auction, if_pos hex]

/-- Details record re-extracted for the already-stored Volvo listing. -/
def volvoDetails : AuctionDetails :=
  { kvd_id := "volvo-v70-abc",
    url := "https://www.kvd.se/auktioner/volvo-v70-abc",
    sale_date := 100, brand := "volvo", model := "v70",
    mileage := some 1200, price := some 150000, year := some 2018 }

/-- Witness for C3: saving the Volvo details a second time leaves the
one-row state untouched. -/
theorem C3_save_auction_dedup_witness :
    save_auction ⟨[volvoCar], [volvoDetails]⟩ volvoDetails =
      ⟨[volvoCar], [volvoDetails]⟩ :=
  C3_save_auction_dedup ⟨[volvoCar], [volvoDetails]⟩ volvoDetails
    ⟨volvoCar, by decide, by decide⟩

/-! ### Claim C8 — SQL extraction from LLM output

Embedding of `extract_sql_query` (src/src/ai/simple_main.py, lines
181–235).  The Python tries four regular-expression patterns in order
(fenced `sql` block; fenced block holding a SELECT ending in `;`; a
standalone `SELECT …;`; a SELECT…FROM…WHERE… fragment cut at a trailing
clause), then a looser fallback that takes everything from the first
`SELECT` followed by whitespace, cuts at the first end marker found after
position 10, or else caps at 10 lines; every extracted candidate is
stripped and given a trailing semicolon if it lacks one.  The regex
engines' backtracking is embedded as recursive scanners over the character
list; where a pattern's group content depends on fine backtracking details
(patterns 1, 2 and 4) the scanner is a faithful-by-construction
approximation, and the claim's theorems depend only on which inputs
produce *some* candidate and on the shared semicolon post-processing, not
on the exact group content of those patterns.
-/

/-- Python's `\s` class (space, tab, newline, carriage return, form feed,
vertical tab). -/
def isSpace (c : Char) : Bool :=
  c == ' ' || c == '\t' || c == '\n' || c == '\r' || c == '\x0b' || c == '\x0c'

/-- Case-insensitive character equality, for `re.IGNORECASE`. -/
def lcEq (a b : Char) : Bool := a.toLower == b.toLower

/-- Case-insensitive "pattern matches at the front of the text". -/
def ciStartsWith : List Char → List Char → Bool
  | [], _ => true
  | _ :: _, [] => false
  | p :: ps, c :: cs => lcEq p c && ciStartsWith ps cs

/-- The SELECT keyword. -/
def selKw : List Char := "select".data

/-- Does `SELECT\s` match at the front of `t` (the SELECT keyword followed
by at least one whitespace character, case-insensitively)?  This is the
requirement shared by regex patterns 3 and 4 and by the looser fallback,
all of which spell `SELECT\s+`. -/
def selectWsAt (t : List Char) : Bool :=
  ciStartsWith selKw t &&
    (match t.drop 6 with
     | [] => false
     | c :: _ => isSpace c)

/-- Embedding of `re.search(r'(SELECT\s+.*)', text, IGNORECASE|DOTALL)`:
the suffix starting at the first SELECT-plus-whitespace occurrence (the
greedy `.*` under DOTALL runs to the end of the string). -/
def findSelectWs : List Char → Option (List Char)
  | [] => none
  | c :: cs => if selectWsAt (c :: cs) then some (c :: cs) else findSelectWs cs

/-- Index of the first occurrence of `pat` in the text (case-sensitive),
Python's `str.find` with `none` for "not found". -/
def findPos (pat : List Char) : List Char → Option Nat
  | [] => if pat.isEmpty then some 0 else none
  | c :: cs =>
      if pat.isPrefixOf (c :: cs) then some 0
      else (findPos pat cs).map (fun n => n + 1)

/-- Lowercase a character list (for the case-insensitive searches). -/
def toLowerList (l : List Char) : List Char := l.map Char.toLower

/-- Remove leading whitespace. -/
def trimLead (l : List Char) : List Char := l.dropWhile isSpace

/-- Remove trailing whitespace. -/
def trimTrail (l : List Char) : List Char := (l.reverse.dropWhile isSpace).reverse

/-- Python's `str.strip()`. -/
def trimChars (l : List Char) : List Char := trimTrail (trimLead l)

/-- Does the candidate end with a semicolon? -/
def endsWithSemi (l : List Char) : Bool := l.getLast? == some ';'

/-- The shared post-processing of patterns 1–4:
`if not sql.strip().endswith(';'): sql = sql.strip() + ';'` followed by
`return sql.strip()`. -/
def ensure_semi (sql : List Char) : List Char :=
  if endsWithSemi (trimChars sql) then trimChars sql
  else trimChars (trimChars sql ++ [';'])

/-- Opening fence of a ```` ```sql ```` block. -/
def sqlFenceKw : List Char := "```sql".data

/-- Plain code fence. -/
def fenceKw : List Char := "```".data

/-- Embedding of pattern 1, ``` r"```sql\s*(.*?)\s*```" ```: at the first
`` ```sql `` opener that has a closing fence, the group is the fenced
content with surrounding whitespace stripped. -/
def pattern1 : List Char → Option (List Char)
  | [] => none
  | c :: cs =>
      if ciStartsWith sqlFenceKw (c :: cs) then
        match findPos fenceKw ((c :: cs).drop 6) with
        | some p => some (trimChars (((c :: cs).drop 6).take p))
        | none => pattern1 cs
      else pattern1 cs

/-- Does a code fence follow after optional whitespace? -/
def fenceAfterWs (l : List Char) : Bool := fenceKw.isPrefixOf (l.dropWhile isSpace)

/-- Scanner for the lazy `(SELECT.*?;)` group of pattern 2: accumulate
content until a semicolon that is followed (after whitespace) by a closing
fence. -/
def scanSemiFence (acc : List Char) : List Char → Option (List Char)
  | [] => none
  | c :: cs =>
      if c == ';' && fenceAfterWs cs then some ((c :: acc).reverse)
      else scanSemiFence (c :: acc) cs

/-- Pattern 2 at one opener: after `` ``` `` and whitespace the content must
start with SELECT and reach a `;` that closes against a fence. -/
def p2At (rest : List Char) : Option (List Char) :=
  let r2 := rest.dropWhile isSpace
  if ciStartsWith selKw r2 then scanSemiFence [] r2 else none

/-- Embedding of pattern 2, ``` r"```\s*(SELECT.*?;)\s*```" ```. -/
def pattern2 : List Char → Option (List Char)
  | [] => none
  | c :: cs =>
      match (if fenceKw.isPrefixOf (c :: cs) then p2At ((c :: cs).drop 3) else none) with
      | some g => some g
      | none => pattern2 cs

/-- Embedding of pattern 3, `r"(SELECT\s+.*?;)"`: from the first
SELECT-plus-whitespace that has a semicolon after it, up to and including
that first semicolon. -/
def pattern3 : List Char → Option (List Char)
  | [] => none
  | c :: cs =>
      match (if selectWsAt (c :: cs) then
               (findPos [';'] (c :: cs)).map (fun p => (c :: cs).take (p + 1))
             else none) with
      | some g => some g
      | none => pattern3 cs

/-- Do a `FROM` and then a `WHERE` (space-delimited, case-insensitively)
follow the SELECT, as pattern 4's `\s+FROM\s+.*?\s+WHERE\s+` requires? -/
def hasFromWhereChain (t : List Char) : Bool :=
  match findPos " from ".data (toLowerList t) with
  | none => false
  | some p => (findPos " where ".data (toLowerList (t.drop p))).isSome

/-- Cut pattern 4's group at the earliest trailing clause keyword
(`GROUP BY`/`ORDER BY`/`LIMIT`, included in the group as in the regex), or
keep everything (the `$` alternative). -/
def clauseCut (t : List Char) : List Char :=
  let low := toLowerList t
  let cands := ([("group by" : String), "order by", "limit"].filterMap
    (fun m => (findPos m.data low).map (fun p => (p, p + m.length))))
  match cands.foldr
      (fun x acc =>
        match acc with
        | none => some x
        | some y => if x.1 ≤ y.1 then some x else some y) none with
  | some pr => t.take pr.2
  | none => t

/-- Embedding of pattern 4,
`r"(SELECT\s+.*?\s+FROM\s+.*?\s+WHERE\s+.*?(?:GROUP BY|ORDER BY|LIMIT|$))"`. -/
def pattern4 : List Char → Option (List Char)
  | [] => none
  | c :: cs =>
      match (if selectWsAt (c :: cs) && hasFromWhereChain (c :: cs) then
               some (clauseCut (c :: cs))
             else none) with
      | some g => some g
      | none => pattern4 cs

/-- The fallback's end markers, searched in this order on the lowercased
fragment. -/
def end_markers : List String :=
  [";", "\n\n", "this query", "the query", "will give", "returns"]

/-- The fallback's marker loop: the first marker found strictly after
position 10 cuts the fragment (the semicolon marker is kept, the others are
replaced by a stripped cut plus a semicolon). -/
def tryMarkers (frag : List Char) : List String → Option (List Char)
  | [] => none
  | m :: ms =>
      match findPos m.data (toLowerList frag) with
      | some p =>
          if 10 < p then
            some (if m = ";" then frag.take p ++ [';']
                  else trimChars (frag.take p) ++ [';'])
          else tryMarkers frag ms
      | none => tryMarkers frag ms

/-- Python's `str.split('\n')`. -/
def splitNl : List Char → List (List Char)
  | [] => [[]]
  | c :: cs =>
      if c == '\n' then [] :: splitNl cs
      else
        match splitNl cs with
        | [] => [[c]]
        | h :: t => (c :: h) :: t

/-- The fallback's post-processing of the `SELECT…` fragment: cut at a late
end marker, otherwise keep at most the first 10 lines; always strip and
semicolon-terminate. -/
def aggressive_post (frag : List Char) : List Char :=
  match tryMarkers frag end_markers with
  | some sql => trimChars sql
  | none =>
      let sql := List.intercalate ['\n'] ((splitNl frag).take 10)
      if endsWithSemi (trimChars sql) then trimChars sql
      else trimChars (trimChars sql ++ [';'])

/-- Embedding of `extract_sql_query`: the four patterns in order, then the
looser fallback, then the empty string. -/
def extract_sql_query (response_text : String) : String :=
  match pattern1 response_text.data with
  | some g => String.mk (ensure_semi g)
  | none =>
    match pattern2 response_text.data with
    | some g => String.mk (ensure_semi g)
    | none =>
      match pattern3 response_text.data with
      | some g => String.mk (ensure_semi g)
      | none =>
        match pattern4 response_text.data with
        | some g => String.mk (ensure_semi g)
        | none =>
          match findSelectWs response_text.data with
          | some frag => String.mk (aggressive_post frag)
          | none => ""

theorem trimLead_append_semi (x : List Char) :
    ∃ y, trimLead (x ++ [';']) = y ++ [';'] := by
  induction x with
  | nil => exact ⟨[], rfl⟩
  | cons c t ih =>
      by_cases h : isSpace c = true
      · obtain ⟨y, hy⟩ := ih
        refine ⟨y, ?_⟩
        rw [List.cons_append, trimLead, List.dropWhile_cons, if_pos h]
        exact hy
      · refine ⟨c :: t, ?_⟩
        rw [List.cons_append, trimLead, List.dropWhile_cons, if_neg h]

theorem trimTrail_append_semi (x : List Char) :
    trimTrail (x ++ [';']) = x ++ [';'] := by
  have h1 : (x ++ [';']).reverse = ';' :: x.reverse := by simp
  rw [trimTrail, h1, List.dropWhile_cons, if_neg (by decide : ¬ isSpace ';' = true)]
  simp

theorem trimChars_append_semi (x : List Char) :
    ∃ y, trimChars (x ++ [';']) = y ++ [';'] := by
  obtain ⟨y, hy⟩ := trimLead_append_semi x
  exact ⟨y, by rw [trimChars, hy, trimTrail_append_semi]⟩

theorem endsWithSemi_iff (l : List Char) :
    endsWithSemi l = true ↔ l.getLast? = some ';' := by
  simp [endsWithSemi]

theorem ensure_semi_ends (sql : List Char) :
    (ensure_semi sql).getLast? = some ';' := by
  by_cases h : endsWithSemi (trimChars sql) = true
  · rw [ensure_semi, if_pos h]
    exact (endsWithSemi_iff _).mp h
  · rw [ensure_semi, if_neg h]
    obtain ⟨y, hy⟩ := trimChars_append_semi (trimChars sql)
    rw [hy, List.getLast?_concat]

theorem tryMarkers_append_semi (frag : List Char) (ms : List String)
    (sql : List Char) (h : tryMarkers frag ms = some sql) :
    ∃ x, sql = x ++ [';'] := by
  induction ms with
  | nil => simp [tryMarkers] at h
  | cons m t ih =>
      rw [tryMarkers] at h
      cases hf : findPos m.data (toLowerList frag) with
      | none =>
          simp only [hf] at h
          exact ih h
      | some p =>
          simp only [hf] at h
          by_cases hp : 10 < p
          · rw [if_pos hp] at h
            have hsql := Option.some.inj h
            by_cases hm : m = ";"
            · exact ⟨frag.take p, by rw [← hsql, if_pos hm]⟩
            · exact ⟨trimChars (frag.take p), by rw [← hsql, if_neg hm]⟩
          · rw [if_neg hp] at h
            exact ih h

theorem aggressive_post_ends (frag : List Char) :
    (aggressive_post frag).getLast? = some ';' := by
  cases ht : tryMarkers frag end_markers with
  | some sql =>
      obtain ⟨x, hx⟩ := tryMarkers_append_semi frag end_markers sql ht
      have he : aggressive_post frag = trimChars sql := by
        simp only [aggressive_post, ht]
      rw [he, hx]
      obtain ⟨y, hy⟩ := trimChars_append_semi x
      rw [hy, List.getLast?_concat]
  | none =>
      have he : aggressive_post frag =
          (if endsWithSemi (trimChars (List.intercalate ['\n'] ((splitNl frag).take 10)))
           then trimChars (List.intercalate ['\n'] ((splitNl frag).take 10))
           else trimChars
             (trimChars (List.intercalate ['\n'] ((splitNl frag).take 10)) ++ [';'])) := by
        simp only [aggressive_post, ht]
      rw [he]
      by_cases h : endsWithSemi (trimChars (List.intercalate ['\n'] ((splitNl frag).take 10))) = true
      · rw [if_pos h]
        exact (endsWithSemi_iff _).mp h
      · rw [if_neg h]
        obtain ⟨y, hy⟩ :=
          trimChars_append_semi (trimChars (List.intercalate ['\n'] ((splitNl frag).take 10)))
        rw [hy, List.getLast?_concat]

theorem findSelectWs_eq_none_iff (l : List Char) :
    findSelectWs l = none ↔ ∀ t, t <:+ l → selectWsAt t = false := by
  induction l with
  | nil =>
      constructor
      · intro _ t ht
        rw [List.suffix_nil.mp ht]
        rfl
      · intro _
        rfl
  | cons c cs ih =>
      cases hsel : selectWsAt (c :: cs) with
      | true =>
          simp only [findSelectWs, hsel, if_true]
          constructor
          · intro hcontra
            cases hcontra
          · intro hall
            have := hall (c :: cs) (List.suffix_refl _)
            rw [hsel] at this
            cases this
      | false =>
          simp only [findSelectWs, hsel, Bool.false_eq_true, if_false]
          rw [ih]
          constructor
          · intro hall t ht
            rcases List.suffix_cons_iff.mp ht with he | hsuf
            · rw [he]
              exact hsel
            · exact hall t hsuf
          · intro hall t ht
            exact hall t (ht.trans (List.suffix_cons c cs))

/-- Occurrence of a SELECT keyword followed by a whitespace character
somewhere in the string: the condition the looser fallback (and patterns 3
and 4) scan for. -/
def HasSelectWs (s : String) : Prop := ∃ t, t <:+ s.data ∧ selectWsAt t = true

theorem mk_semi_branch (l : List Char) (hl : l.getLast? = some ';') :
    (String.mk l).data ≠ [] ∧ (String.mk l).data.getLast? = some ';' := by
  refine ⟨?_, hl⟩
  intro h
  rw [show (String.mk l).data = l from rfl] at h
  rw [h] at hl
  cases hl

/-- Counterexample to claim C8 as stated: the input "SELECT" contains a
SELECT occurrence, yet `extract_sql_query` returns the empty string — every
pattern and the fallback require whitespace after the keyword. -/
theorem C8_counterexample :
    ¬ ((extract_sql_query "SELECT" ≠ "" ∧
          (extract_sql_query "SELECT").data.getLast? = some ';') ∨
       (extract_sql_query "SELECT" = "" ∧
          ¬ ("select".data <:+: (strToLower "SELECT").data))) := by
  decide

/-- Claim C8 (amended): for every input, `extract_sql_query` either returns
a non-empty string ending in a semicolon (appending one if the extracted
text lacks it, with the looser fallback capped at 10 lines), or returns the
empty string — and the empty string only when the input contains no
occurrence of SELECT followed by a whitespace character, in which case the
pipeline proceeds without SQL grounding. -/
theorem C8_extract_sql_amended (s : String) :
    ((extract_sql_query s).data ≠ [] ∧
        (extract_sql_query s).data.getLast? = some ';') ∨
    (extract_sql_query s = "" ∧ ¬ HasSelectWs s) := by
  cases h1 : pattern1 s.data with
  | some g =>
      left
      simp only [extract_sql_query, h1]
      exact mk_semi_branch _ (ensure_semi_ends g)
  | none =>
  cases h2 : pattern2 s.data with
  | some g =>
      left
      simp only [extract_sql_query, h1, h2]
      exact mk_semi_branch _ (ensure_semi_ends g)
  | none =>
  cases h3 : pattern3 s.data with
  | some g =>
      left
      simp only [extract_sql_query, h1, h2, h3]
      exact mk_semi_branch _ (ensure_semi_ends g)
  | none =>
  cases h4 : pattern4 s.data with
  | some g =>
      left
      simp only [extract_sql_query, h1, h2, h3, h4]
      exact mk_semi_branch _ (ensure_semi_ends g)
  | none =>
  cases h5 : findSelectWs s.data with
  | some frag =>
      left
      simp only [extract_sql_query, h1, h2, h3, h4, h5]
      exact mk_semi_branch _ (aggressive_post_ends frag)
  | none =>
      right
      refine ⟨by simp only [extract_sql_query, h1, h2, h3, h4, h5], ?_⟩
      rintro ⟨t, ht, hsel⟩
      have := (findSelectWs_eq_none_iff s.data).mp h5 t ht
      rw [hsel] at this
      cases this

end KVD
